import Mathlib

/-!
Verification of the Exchange & Point Settlement subsystem of the techverse
book-exchange application, together with the book-management and
email-notification collaborators.

The data model follows prisma/migrations (tables users, books, exchanges),
book management follows src/lib/books.ts, the email sender follows
src/lib/sendEmail.ts and the notification helpers follow
src/lib/emailHelpers.ts.  The exchange state machine itself
(src/lib/exchanges.ts) is not part of the source snapshot; its operations
are modelled from the specification, as marked in their doc comments.
-/

/-- Book condition enum, from the BookCondition SQL enum. -/
inductive BookCondition where
  | POOR
  | FAIR
  | GOOD
  | EXCELLENT
deriving DecidableEq, Repr

/-- Exchange status enum, from the ExchangeStatus SQL enum. -/
inductive ExchangeStatus where
  | REQUESTED
  | APPROVED
  | COMPLETED
  | REJECTED
  | DISPUTED
deriving DecidableEq, Repr

/-- A row of the users table; only the columns the core reads
(id, points balance) plus the contact columns used by notifications. -/
structure User where
  id : Nat
  points : Nat
  email : String
  name : Option String
deriving DecidableEq, Repr

/-- A row of the books table, from the books migration plus the
AI-valuation columns (`computedPoints` may be absent). -/
structure Book where
  id : Nat
  title : String
  author : String
  description : Option String
  condition : BookCondition
  images : List String
  location : String
  currentOwnerId : Nat
  isAvailable : Bool
  computedPoints : Option Nat
deriving DecidableEq, Repr

/-- A row of the exchanges table, from the exchanges migration. -/
structure Exchange where
  id : Nat
  bookId : Nat
  fromUserId : Nat
  toUserId : Nat
  pointsUsed : Nat
  status : ExchangeStatus
  createdAt : Nat
  completedAt : Option Nat
deriving DecidableEq, Repr

/-- The database state: the three tables plus fresh-id counters standing
for the id generator of the store. -/
structure St where
  users : List User
  books : List Book
  exchanges : List Exchange
  nextBookId : Nat
  nextExchangeId : Nat
deriving DecidableEq, Repr

deriving instance DecidableEq for Except

/-- Find a user row by primary key (findUnique on users). -/
def findUser : List User → Nat → Option User
  | [], _ => none
  | u :: rest, uid => if u.id = uid then some u else findUser rest uid

/-- Find a book row by primary key (findUnique on books). -/
def findBook : List Book → Nat → Option Book
  | [], _ => none
  | b :: rest, bid => if b.id = bid then some b else findBook rest bid

/-- Find an exchange row by primary key (findUnique on exchanges). -/
def findExchange : List Exchange → Nat → Option Exchange
  | [], _ => none
  | e :: rest, eid => if e.id = eid then some e else findExchange rest eid

/-- Update the points column of the user row with the given id
(user.update keyed by primary key: touches exactly one row). -/
def updatePoints : List User → Nat → (Nat → Nat) → List User
  | [], _, _ => []
  | u :: rest, uid, f =>
      if u.id = uid then { u with points := f u.points } :: rest
      else u :: updatePoints rest uid f

/-- Update the book row with the given id (book.update keyed by primary
key: touches exactly one row). -/
def updateBooks : List Book → Nat → (Book → Book) → List Book
  | [], _, _ => []
  | b :: rest, bid, f =>
      if b.id = bid then f b :: rest
      else b :: updateBooks rest bid f

/-- Update the exchange row with the given id (exchange.update keyed by
primary key: touches exactly one row). -/
def updateExchanges : List Exchange → Nat → (Exchange → Exchange) → List Exchange
  | [], _, _ => []
  | e :: rest, eid, f =>
      if e.id = eid then f e :: rest
      else e :: updateExchanges rest eid f

/-- Delete the exchange row with the given id (exchange.delete keyed by
primary key). -/
def removeExchanges (l : List Exchange) (eid : Nat) : List Exchange :=
  l.filter (fun e => e.id != eid)

/-- Sum of all point balances in the users table. -/
def pointsSum : List User → Nat
  | [] => 0
  | u :: rest => u.points + pointsSum rest

/-- Total points in the system. -/
def totalPoints (s : St) : Nat := pointsSum s.users

/-- An exchange is ACTIVE when its status is REQUESTED or APPROVED. -/
def isActive : ExchangeStatus → Bool
  | .REQUESTED => true
  | .APPROVED => true
  | _ => false

/-- Statuses counted by the repeat-pair anti-abuse check: completed or
active exchanges. -/
def countsForRepeat : ExchangeStatus → Bool
  | .REQUESTED => true
  | .APPROVED => true
  | .COMPLETED => true
  | _ => false

/-- The trailing anti-abuse window: 7 days in milliseconds. -/
def cooldownWindowMs : Nat := 7 * 24 * 60 * 60 * 1000

/-- Fallback valuation used when a book has no cached computedPoints
(the UI and the docs both use the constant 10). -/
def fallbackPoints : Nat := 10

/-- Admission errors of requestExchange, from the specification's
error taxonomy. -/
inductive AdmissionError where
  | unauthenticated
  | bookNotFound
  | selfExchangeForbidden
  | bookUnavailable
  | activeExchangeExists
  | insufficientPoints
  | repeatExchangeBlocked
  | circularExchangeBlocked
deriving DecidableEq, Repr

/-- Errors of the approve/reject/cancel/dispute transitions, from the
specification's error taxonomy. -/
inductive ExchangeError where
  | exchangeNotFound
  | notAuthorized
  | invalidStatus
  | userNotFound
  | bookNotFound
  | insufficientPointsAtSettlement
deriving DecidableEq, Repr

/-- True when some exchange row for this book is ACTIVE. -/
def hasActiveExchange (l : List Exchange) (bid : Nat) : Bool :=
  l.any (fun e => e.bookId == bid && isActive e.status)

/-- True when a completed-or-active exchange between the exact ordered
pair (owner, requester) lies within the trailing window. -/
def repeatBlocked (l : List Exchange) (now owner requester : Nat) : Bool :=
  l.any (fun e =>
    e.fromUserId == owner && e.toUserId == requester &&
    countsForRepeat e.status && now - e.createdAt < cooldownWindowMs)

/-- True when the current owner previously acquired this same book inside
the window, so that granting the request would close an A to B to A loop. -/
def circularBlocked (l : List Exchange) (now bid owner : Nat) : Bool :=
  l.any (fun e =>
    e.bookId == bid && e.toUserId == owner &&
    e.status == ExchangeStatus.COMPLETED && now - e.createdAt < cooldownWindowMs)

/-- Modelled from the spec: `requestExchange` of src/lib/exchanges.ts is
not in the source snapshot.  Evaluates the admission checks in the
specified order (authentication, book exists, self-exchange, availability,
single active exchange, balance against the valuation snapshot, repeat
pair, circular pattern) and on success creates the REQUESTED exchange with
the valuation snapshotted into pointsUsed.  No balance or book mutation. -/
def requestExchange (s : St) (now bid uid : Nat) :
    Except AdmissionError (St × Exchange) :=
  match findUser s.users uid with
  | none => .error .unauthenticated
  | some requester =>
    match findBook s.books bid with
    | none => .error .bookNotFound
    | some b =>
      if uid = b.currentOwnerId then .error .selfExchangeForbidden
      else if !b.isAvailable then .error .bookUnavailable
      else if hasActiveExchange s.exchanges bid then .error .activeExchangeExists
      else
        let cost := b.computedPoints.getD fallbackPoints
        if requester.points < cost then .error .insufficientPoints
        else if repeatBlocked s.exchanges now b.currentOwnerId uid then
          .error .repeatExchangeBlocked
        else if circularBlocked s.exchanges now bid b.currentOwnerId then
          .error .circularExchangeBlocked
        else
          let ex : Exchange :=
            { id := s.nextExchangeId, bookId := bid,
              fromUserId := b.currentOwnerId, toUserId := uid,
              pointsUsed := cost, status := .REQUESTED,
              createdAt := now, completedAt := none }
          .ok ({ s with exchanges := s.exchanges ++ [ex],
                        nextExchangeId := s.nextExchangeId + 1 }, ex)

/-- The settlement mutation bundle executed inside the approval
transaction: debit the requester, credit the owner, transfer ownership,
re-list the book, complete the exchange. -/
def settle (s : St) (e : Exchange) (now : Nat) : St :=
  { s with
    users := updatePoints
               (updatePoints s.users e.toUserId (fun p => p - e.pointsUsed))
               e.fromUserId (fun p => p + e.pointsUsed),
    books := updateBooks s.books e.bookId
               (fun b => { b with currentOwnerId := e.toUserId, isAvailable := true }),
    exchanges := updateExchanges s.exchanges e.id
               (fun x => { x with status := .COMPLETED, completedAt := some now }) }

/-- Modelled from the spec: `approveExchange` of src/lib/exchanges.ts is
not in the source snapshot.  Only the owner (fromUserId) may approve a
REQUESTED exchange; the requester's balance is re-checked against
pointsUsed inside the transaction, and the settlement bundle runs
atomically, landing on COMPLETED with completedAt set. -/
def approveExchange (s : St) (now eid cid : Nat) : Except ExchangeError St :=
  match findExchange s.exchanges eid with
  | none => .error .exchangeNotFound
  | some e =>
    if cid = e.fromUserId then
      if e.status = ExchangeStatus.REQUESTED then
        match findUser s.users e.toUserId, findUser s.users e.fromUserId with
        | some toU, some _ =>
          if toU.points < e.pointsUsed then .error .insufficientPointsAtSettlement
          else
            match findBook s.books e.bookId with
            | none => .error .bookNotFound
            | some _ => .ok (settle s e now)
        | _, _ => .error .userNotFound
      else .error .invalidStatus
    else .error .notAuthorized

/-- Modelled from the spec: `rejectExchange` of src/lib/exchanges.ts is
not in the source snapshot.  Only the owner may reject a REQUESTED
exchange; the status becomes REJECTED and nothing else changes. -/
def rejectExchange (s : St) (eid cid : Nat) : Except ExchangeError St :=
  match findExchange s.exchanges eid with
  | none => .error .exchangeNotFound
  | some e =>
    if cid = e.fromUserId then
      if e.status = ExchangeStatus.REQUESTED then
        .ok { s with exchanges :=
                updateExchanges s.exchanges e.id (fun x => { x with status := .REJECTED }) }
      else .error .invalidStatus
    else .error .notAuthorized

/-- Modelled from the spec: `cancelExchange` of src/lib/exchanges.ts is
not in the source snapshot.  Only the requester may cancel a REQUESTED
exchange; the exchange row is deleted and nothing else changes. -/
def cancelExchange (s : St) (eid cid : Nat) : Except ExchangeError St :=
  match findExchange s.exchanges eid with
  | none => .error .exchangeNotFound
  | some e =>
    if cid = e.toUserId then
      if e.status = ExchangeStatus.REQUESTED then
        .ok { s with exchanges := removeExchanges s.exchanges e.id }
      else .error .invalidStatus
    else .error .notAuthorized

/-- Modelled from the spec: `disputeExchange` of src/lib/exchanges.ts is
not in the source snapshot.  Either party may dispute a COMPLETED (or
APPROVED) exchange; the status becomes DISPUTED and the settled points
and ownership are not reverted. -/
def disputeExchange (s : St) (eid cid : Nat) : Except ExchangeError St :=
  match findExchange s.exchanges eid with
  | none => .error .exchangeNotFound
  | some e =>
    if cid = e.fromUserId ∨ cid = e.toUserId then
      if e.status = ExchangeStatus.COMPLETED ∨ e.status = ExchangeStatus.APPROVED then
        .ok { s with exchanges :=
                updateExchanges s.exchanges e.id (fun x => { x with status := .DISPUTED }) }
      else .error .invalidStatus
    else .error .notAuthorized

/-- The observable state after an approval call: the new state on
success, the untouched state when the transaction aborted. -/
def approveRun (s : St) (now eid cid : Nat) : St :=
  match approveExchange s now eid cid with
  | .ok s' => s'
  | .error _ => s

/-- The observable state after a request call: the new state on success,
the untouched state on an admission failure. -/
def requestRun (s : St) (now bid uid : Nat) : St :=
  match requestExchange s now bid uid with
  | .ok (s', _) => s'
  | .error _ => s

/-- Both-ends whitespace trimming, as the JavaScript trim used by
src/lib/books.ts; defined over the character list so that it is
executable inside the kernel. -/
def strTrim (s : String) : String :=
  ⟨List.reverse (List.dropWhile Char.isWhitespace
    (List.reverse (List.dropWhile Char.isWhitespace s.toList)))⟩

/-- Errors of the book-management functions in src/lib/books.ts (thrown
as exceptions there) plus the database foreign-key rejection surfaced by
book deletion. -/
inductive BookError where
  | notAuthenticated
  | missingFields
  | emptyFields
  | invalidAccount
  | bookNotFound
  | notOwner
  | foreignKeyRestrict
deriving DecidableEq, Repr

/-- Input of addBook, from src/lib/books.ts. -/
structure BookData where
  title : String
  author : String
  description : Option String
  condition : BookCondition
  images : Option (List String)
  location : String
deriving DecidableEq, Repr

/-- addBook from src/lib/books.ts: requires authentication, validates the
required fields, re-checks that the session user exists in the database,
and creates the book with the caller as currentOwnerId and isAvailable
set to true. -/
def addBook (s : St) (session : Option Nat) (d : BookData) :
    Except BookError (St × Book) :=
  match session with
  | none => .error .notAuthenticated
  | some uid =>
    if d.title = "" ∨ d.author = "" ∨ d.location = "" then .error .missingFields
    else if strTrim d.title = "" ∨ strTrim d.author = "" then .error .emptyFields
    else
      match findUser s.users uid with
      | none => .error .invalidAccount
      | some _ =>
        let b : Book :=
          { id := s.nextBookId, title := strTrim d.title, author := strTrim d.author,
            description := d.description.map strTrim,
            condition := d.condition, images := d.images.getD [],
            location := strTrim d.location,
            currentOwnerId := uid, isAvailable := true, computedPoints := none }
        .ok ({ s with books := s.books ++ [b], nextBookId := s.nextBookId + 1 }, b)

/-- The delete statement issued by deleteBook, honouring the
exchanges_bookId_fkey constraint declared ON DELETE RESTRICT in the
migration: a book referenced by any exchange row cannot be deleted. -/
def dbDeleteBook (s : St) (bid : Nat) : Except BookError St :=
  if s.exchanges.any (fun e => e.bookId == bid) then .error .foreignKeyRestrict
  else .ok { s with books := s.books.filter (fun b => b.id != bid) }

/-- deleteBook from src/lib/books.ts: requires authentication, verifies
the book exists and the caller owns it, then issues the delete, which the
database rejects when exchange rows reference the book. -/
def deleteBook (s : St) (session : Option Nat) (bid : Nat) : Except BookError St :=
  match session with
  | none => .error .notAuthenticated
  | some uid =>
    match findBook s.books bid with
    | none => .error .bookNotFound
    | some b =>
      if b.currentOwnerId = uid then dbDeleteBook s bid
      else .error .notOwner

/-- The observable state after a deleteBook call: unchanged whenever the
call fails. -/
def deleteBookRun (s : St) (session : Option Nat) (bid : Nat) : St :=
  match deleteBook s session bid with
  | .ok s' => s'
  | .error _ => s

/-- updateBookAvailability from src/lib/books.ts: only the current owner
may flip the isAvailable flag. -/
def updateBookAvailability (s : St) (session : Option Nat) (bid : Nat)
    (avail : Bool) : Except BookError St :=
  match session with
  | none => .error .notAuthenticated
  | some uid =>
    match findBook s.books bid with
    | none => .error .bookNotFound
    | some b =>
      if b.currentOwnerId = uid then
        .ok { s with books :=
                updateBooks s.books bid (fun x => { x with isAvailable := avail }) }
      else .error .notOwner

/-- One successful mutating operation of the system. -/
inductive Step : St → St → Prop where
  | request (s s' : St) (now bid uid : Nat) (ex : Exchange) :
      requestExchange s now bid uid = .ok (s', ex) → Step s s'
  | approve (s s' : St) (now eid cid : Nat) :
      approveExchange s now eid cid = .ok s' → Step s s'
  | reject (s s' : St) (eid cid : Nat) :
      rejectExchange s eid cid = .ok s' → Step s s'
  | cancel (s s' : St) (eid cid : Nat) :
      cancelExchange s eid cid = .ok s' → Step s s'
  | dispute (s s' : St) (eid cid : Nat) :
      disputeExchange s eid cid = .ok s' → Step s s'
  | book_add (s s' : St) (session : Option Nat) (d : BookData) (b : Book) :
      addBook s session d = .ok (s', b) → Step s s'
  | book_delete (s s' : St) (session : Option Nat) (bid : Nat) :
      deleteBook s session bid = .ok s' → Step s s'
  | book_avail (s s' : St) (session : Option Nat) (bid : Nat) (avail : Bool) :
      updateBookAvailability s session bid avail = .ok s' → Step s s'

/-- Reachability: finitely many successful operations. -/
def Reachable : St → St → Prop := Relation.ReflTransGen Step

/-- The exchange-table invariant: ids are below the fresh-id counter,
ids are unique, and no two distinct rows are ACTIVE for the same book. -/
def ExchInv (s : St) : Prop :=
  (∀ e ∈ s.exchanges, e.id < s.nextExchangeId) ∧
  (s.exchanges.map Exchange.id).Nodup ∧
  (∀ e₁ ∈ s.exchanges, ∀ e₂ ∈ s.exchanges,
    isActive e₁.status = true → isActive e₂.status = true →
    e₁.bookId = e₂.bookId → e₁ = e₂)

/-- Options of the generic email sender, from src/lib/sendEmail.ts.
The source field named after the recipient is rendered here as toAddr
because its original name is a reserved word. -/
structure SendEmailOptions where
  toAddr : String
  subject : String
  html : String
deriving DecidableEq, Repr

/-- Outcome of the underlying Resend API call for one send: the API
reported an error value, the await raised an exception, or the message
was accepted with an id. -/
inductive ResendOutcome where
  | apiError (msg : String)
  | thrown (msg : String)
  | sent (msgId : String)
deriving DecidableEq, Repr

/-- Return value of sendEmail, from src/lib/sendEmail.ts. -/
structure SendResult where
  success : Bool
  error : Option String
  messageId : Option String
deriving DecidableEq, Repr

/-- The email-address check of src/lib/sendEmail.ts: the string matches
one run of non-space non-at characters, an at sign, a second such run, a
dot and a third such run. -/
def isValidEmail (s : String) : Bool :=
  match s.toList.splitOn '@' with
  | [localPart, domain] =>
      decide (localPart ≠ []) &&
      localPart.all (fun c => !c.isWhitespace) &&
      domain.all (fun c => !c.isWhitespace) &&
      (List.range domain.length).any (fun i =>
        decide (0 < i) && decide (i + 1 < domain.length) && (domain.get? i == some '.'))
  | _ => false

/-- sendEmail from src/lib/sendEmail.ts: checks configuration, address
validity and required fields, then performs the API call; API errors and
raised exceptions are both caught and turned into a failure result, so
the function always returns a SendResult and never throws. -/
def sendEmail (configured : Bool) (opts : SendEmailOptions)
    (api : ResendOutcome) : SendResult :=
  if !configured then
    { success := false, error := some "Email service not configured", messageId := none }
  else if !isValidEmail opts.toAddr then
    { success := false, error := some "Invalid email address", messageId := none }
  else if opts.subject = "" ∨ opts.html = "" then
    { success := false, error := some "Missing required fields", messageId := none }
  else
    match api with
    | .apiError msg => { success := false, error := some msg, messageId := none }
    | .thrown msg => { success := false, error := some msg, messageId := none }
    | .sent msgId => { success := true, error := none, messageId := some msgId }

/-- sendEmailAsync from src/lib/sendEmail.ts: fire-and-forget wrapper
that performs the send, attaches a catch handler and discards the result,
returning nothing to its caller. -/
def sendEmailAsync (configured : Bool) (opts : SendEmailOptions)
    (api : ResendOutcome) : Unit :=
  let _ := sendEmail configured opts api
  ()

/-- The columns of the exchange row (with joined book and user rows) that
the notification helpers of src/lib/emailHelpers.ts read. -/
structure ExchangeEmailData where
  id : Nat
  pointsUsed : Nat
  bookTitle : String
  bookAuthor : String
  fromUserEmail : String
  fromUserName : Option String
  toUserEmail : String
  toUserName : Option String
deriving DecidableEq, Repr

/-- APP_BASE_URL from src/lib/resend.ts: base URL for app links; the
environment overrides are not modelled, so the development default is
used. -/
def APP_BASE_URL : String := "http://localhost:3000"

/-- Parameter record of getExchangeRequestEmailTemplate, from
src/lib/emailTemplates.ts; ids are Nat as everywhere in this model. -/
structure ExchangeRequestEmailInput where
  ownerName : Option String
  requesterName : Option String
  bookTitle : String
  bookAuthor : String
  points : Nat
  exchangeId : Nat
deriving DecidableEq, Repr

/-- getExchangeRequestEmailTemplate from src/lib/emailTemplates.ts: the
exchange-request notification HTML sent to the book owner, with the
null-name fallbacks of the source. -/
def getExchangeRequestEmailTemplate (data : ExchangeRequestEmailInput) : String :=
  let ownerName := data.ownerName.getD "there"
  let requesterName := data.requesterName.getD "Someone"
  "\n" ++
  "    <!DOCTYPE html>\n" ++
  "    <html>\n" ++
  "      <head>\n" ++
  "        <meta charset=\"utf-8\">\n" ++
  "        <meta name=\"viewport\" content=\"width=device-width, initial-scale=1.0\">\n" ++
  "        <title>New Exchange Request</title>\n" ++
  "      </head>\n" ++
  "      <body style=\"font-family: -apple-system, BlinkMacSystemFont, \x27Segoe UI\x27, Roboto, \x27Helvetica Neue\x27, Arial, sans-serif; line-height: 1.6; color: #333; max-width: 600px; margin: 0 auto; padding: 20px;\">\n" ++
  "        <div style=\"background: linear-gradient(135deg, #10b981 0%, #059669 100%); padding: 30px; text-align: center; border-radius: 8px 8px 0 0;\">\n" ++
  "          <h1 style=\"color: white; margin: 0; font-size: 24px;\">📖 New Exchange Request</h1>\n" ++
  "        </div>\n" ++
  "        \n" ++
  "        <div style=\"background: #ffffff; padding: 30px; border: 1px solid #e5e7eb; border-top: none; border-radius: 0 0 8px 8px;\">\n" ++
  "          <p style=\"font-size: 16px; margin-bottom: 20px;\">Hi " ++
  ownerName ++
  ",</p>\n" ++
  "          \n" ++
  "          <p style=\"font-size: 16px; margin-bottom: 20px;\">\n" ++
  "            <strong>" ++
  requesterName ++
  "</strong> has requested to exchange your book:\n" ++
  "          </p>\n" ++
  "          \n" ++
  "          <div style=\"background: #f9fafb; padding: 20px; border-radius: 8px; margin: 20px 0; border-left: 4px solid #10b981;\">\n" ++
  "            <p style=\"margin: 0; font-size: 18px; font-weight: 600;\">" ++
  data.bookTitle ++
  "</p>\n" ++
  "            <p style=\"margin: 5px 0 0 0; font-size: 14px; color: #6b7280;\">by " ++
  data.bookAuthor ++
  "</p>\n" ++
  "            <p style=\"margin: 10px 0 0 0; font-size: 14px; color: #059669;\">\n" ++
  "              <strong>" ++
  toString data.points ++
  " points</strong>\n" ++
  "            </p>\n" ++
  "          </div>\n" ++
  "          \n" ++
  "          <p style=\"font-size: 16px; margin-bottom: 20px;\">\n" ++
  "            You can approve or reject this request from your exchanges page.\n" ++
  "          </p>\n" ++
  "          \n" ++
  "          <div style=\"text-align: center; margin: 30px 0;\">\n" ++
  "            <a href=\"" ++
  APP_BASE_URL ++
  "/exchanges\" style=\"display: inline-block; background: #10b981; color: white; padding: 12px 30px; text-decoration: none; border-radius: 6px; font-weight: 600; font-size: 16px;\">\n" ++
  "              View Exchange\n" ++
  "            </a>\n" ++
  "          </div>\n" ++
  "          \n" ++
  "          <p style=\"font-size: 14px; color: #6b7280; margin-top: 30px; border-top: 1px solid #e5e7eb; padding-top: 20px;\">\n" ++
  "            Best regards,<br>\n" ++
  "            BooksExchange\n" ++
  "          </p>\n" ++
  "        </div>\n" ++
  "      </body>\n" ++
  "    </html>\n" ++
  "  "

/-- Parameter record of getExchangeCompletedEmailTemplate, from
src/lib/emailTemplates.ts. -/
structure ExchangeCompletedEmailInput where
  userName : Option String
  otherPartyName : Option String
  bookTitle : String
  bookAuthor : String
  points : Nat
  isOwner : Bool
deriving DecidableEq, Repr

/-- getExchangeCompletedEmailTemplate from src/lib/emailTemplates.ts: the
completion notification HTML sent to each party, with the null-name
fallbacks and the earned/spent wording of the source. -/
def getExchangeCompletedEmailTemplate (data : ExchangeCompletedEmailInput) : String :=
  let userName := data.userName.getD "there"
  let otherPartyName := data.otherPartyName.getD "the other party"
  let action := if data.isOwner then "earned" else "spent"
  "\n" ++
  "    <!DOCTYPE html>\n" ++
  "    <html>\n" ++
  "      <head>\n" ++
  "        <meta charset=\"utf-8\">\n" ++
  "        <meta name=\"viewport\" content=\"width=device-width, initial-scale=1.0\">\n" ++
  "        <title>Exchange Completed</title>\n" ++
  "      </head>\n" ++
  "      <body style=\"font-family: -apple-system, BlinkMacSystemFont, \x27Segoe UI\x27, Roboto, \x27Helvetica Neue\x27, Arial, sans-serif; line-height: 1.6; color: #333; max-width: 600px; margin: 0 auto; padding: 20px;\">\n" ++
  "        <div style=\"background: linear-gradient(135deg, #3b82f6 0%, #2563eb 100%); padding: 30px; text-align: center; border-radius: 8px 8px 0 0;\">\n" ++
  "          <h1 style=\"color: white; margin: 0; font-size: 24px;\">🎉 Exchange Completed!</h1>\n" ++
  "        </div>\n" ++
  "        \n" ++
  "        <div style=\"background: #ffffff; padding: 30px; border: 1px solid #e5e7eb; border-top: none; border-radius: 0 0 8px 8px;\">\n" ++
  "          <p style=\"font-size: 16px; margin-bottom: 20px;\">Hi " ++
  userName ++
  ",</p>\n" ++
  "          \n" ++
  "          <p style=\"font-size: 16px; margin-bottom: 20px;\">\n" ++
  "            Your exchange with <strong>" ++
  otherPartyName ++
  "</strong> has been completed!\n" ++
  "          </p>\n" ++
  "          \n" ++
  "          <div style=\"background: #eff6ff; padding: 20px; border-radius: 8px; margin: 20px 0; border-left: 4px solid #3b82f6;\">\n" ++
  "            <p style=\"margin: 0; font-size: 18px; font-weight: 600;\">" ++
  data.bookTitle ++
  "</p>\n" ++
  "            <p style=\"margin: 5px 0 0 0; font-size: 14px; color: #6b7280;\">by " ++
  data.bookAuthor ++
  "</p>\n" ++
  "            <p style=\"margin: 10px 0 0 0; font-size: 14px; color: #2563eb;\">\n" ++
  "              <strong>" ++
  toString data.points ++
  " points</strong> " ++
  action ++
  "\n" ++
  "            </p>\n" ++
  "          </div>\n" ++
  "          \n" ++
  "          <div style=\"text-align: center; margin: 30px 0;\">\n" ++
  "            <a href=\"" ++
  APP_BASE_URL ++
  "/exchanges\" style=\"display: inline-block; background: #3b82f6; color: white; padding: 12px 30px; text-decoration: none; border-radius: 6px; font-weight: 600; font-size: 16px;\">\n" ++
  "              View Exchange Details\n" ++
  "            </a>\n" ++
  "          </div>\n" ++
  "          \n" ++
  "          <p style=\"font-size: 14px; color: #6b7280; margin-top: 30px; border-top: 1px solid #e5e7eb; padding-top: 20px;\">\n" ++
  "            Thank you for using BooksExchange!<br>\n" ++
  "            BooksExchange Team\n" ++
  "          </p>\n" ++
  "        </div>\n" ++
  "      </body>\n" ++
  "    </html>\n" ++
  "  "

/-- sendExchangeRequestEmail from src/lib/emailHelpers.ts: the whole body
runs inside a try block; a database failure is caught and logged, a
missing exchange only logs a warning, and the send itself goes through
the fire-and-forget sendEmailAsync.  The error result stands for an
uncaught exception reaching the caller, which never happens. -/
def sendExchangeRequestEmail (db : Except String (Option ExchangeEmailData))
    (configured : Bool) (api : ResendOutcome) : Except String Unit :=
  match db with
  | .error _ => .ok ()
  | .ok none => .ok ()
  | .ok (some d) =>
      let _ := sendEmailAsync configured
        { toAddr := d.fromUserEmail,
          subject := "New Exchange Request: " ++ d.bookTitle,
          html := getExchangeRequestEmailTemplate
            { ownerName := d.fromUserName, requesterName := d.toUserName,
              bookTitle := d.bookTitle, bookAuthor := d.bookAuthor,
              points := d.pointsUsed, exchangeId := d.id } } api
      .ok ()

/-- sendExchangeCompletedEmail from src/lib/emailHelpers.ts: same
structure, with one fire-and-forget send to each party. -/
def sendExchangeCompletedEmail (db : Except String (Option ExchangeEmailData))
    (configured : Bool) (apiOwner apiRequester : ResendOutcome) : Except String Unit :=
  match db with
  | .error _ => .ok ()
  | .ok none => .ok ()
  | .ok (some d) =>
      let _ := sendEmailAsync configured
        { toAddr := d.fromUserEmail,
          subject := "Exchange Completed: " ++ d.bookTitle ++ " 🎉",
          html := getExchangeCompletedEmailTemplate
            { userName := d.fromUserName, otherPartyName := d.toUserName,
              bookTitle := d.bookTitle, bookAuthor := d.bookAuthor,
              points := d.pointsUsed, isOwner := true } } apiOwner
      let _ := sendEmailAsync configured
        { toAddr := d.toUserEmail,
          subject := "Exchange Completed: " ++ d.bookTitle ++ " 🎉",
          html := getExchangeCompletedEmailTemplate
            { userName := d.toUserName, otherPartyName := d.fromUserName,
              bookTitle := d.bookTitle, bookAuthor := d.bookAuthor,
              points := d.pointsUsed, isOwner := false } } apiRequester
      .ok ()

/-- Modelled from the spec: inside approveExchange of src/lib/exchanges.ts
the completion email is fired after the transaction without being awaited,
so the pair below records that the core transition result is computed
independently of the notification outcome. -/
def approveExchangeNotified (s : St) (now eid cid : Nat)
    (db : Except String (Option ExchangeEmailData)) (configured : Bool)
    (apiOwner apiRequester : ResendOutcome) :
    Except ExchangeError St × Except String Unit :=
  (approveExchange s now eid cid,
   sendExchangeCompletedEmail db configured apiOwner apiRequester)

/-- Demo fixture: a user who owns the demo book. -/
def alice : User :=
  { id := 1, points := 20, email := "alice@example.com", name := some "Alice" }

/-- Demo fixture: a user who requests the demo book. -/
def bob : User :=
  { id := 2, points := 15, email := "bob@example.com", name := some "Bob" }

/-- Demo fixture: the same requester with a balance below the valuation. -/
def bobPoor : User :=
  { id := 2, points := 5, email := "bob@example.com", name := some "Bob" }

/-- Demo fixture: a book owned by the first user, valued at 10 points. -/
def bookX : Book :=
  { id := 1, title := "Dune", author := "Frank Herbert", description := none,
    condition := .GOOD, images := [], location := "Lahore",
    currentOwnerId := 1, isAvailable := true, computedPoints := some 10 }

/-- Demo fixture: the base state with two users, one book, no exchanges. -/
def stBase : St :=
  { users := [alice, bob], books := [bookX], exchanges := [],
    nextBookId := 2, nextExchangeId := 1 }

/-- Demo fixture: the exchange created by the demo request. -/
def exReq : Exchange :=
  { id := 1, bookId := 1, fromUserId := 1, toUserId := 2, pointsUsed := 10,
    status := .REQUESTED, createdAt := 0, completedAt := none }

/-- Demo fixture: the state after the demo request. -/
def stReq : St :=
  { users := [alice, bob], books := [bookX], exchanges := [exReq],
    nextBookId := 2, nextExchangeId := 2 }

/-- Demo fixture: a REQUESTED exchange whose requester balance has dropped
below the valuation snapshot. -/
def stPoor : St :=
  { users := [alice, bobPoor], books := [bookX], exchanges := [exReq],
    nextBookId := 2, nextExchangeId := 2 }

/-- Demo fixture: a COMPLETED exchange between the demo pair at time 0. -/
def exDone : Exchange :=
  { id := 1, bookId := 1, fromUserId := 1, toUserId := 2, pointsUsed := 10,
    status := .COMPLETED, createdAt := 0, completedAt := some 0 }

/-- Demo fixture: state holding only the completed pair history. -/
def stHist : St :=
  { users := [alice, bob], books := [bookX], exchanges := [exDone],
    nextBookId := 2, nextExchangeId := 2 }

/-- Demo fixture: payload for an addBook call. -/
def newBookData : BookData :=
  { title := "Siddhartha", author := "Hermann Hesse", description := none,
    condition := .EXCELLENT, images := none, location := "Karachi" }

theorem findUser_updatePoints_self (l : List User) (uid : Nat) (f : Nat → Nat)
    (u : User) (h : findUser l uid = some u) :
    findUser (updatePoints l uid f) uid = some { u with points := f u.points } := by
  induction l with
  | nil => simp [findUser] at h
  | cons a rest ih =>
    by_cases ha : a.id = uid
    · simp [findUser, ha] at h
      subst h
      simp [updatePoints, findUser, ha]
    · simp [findUser, ha] at h
      simp [updatePoints, findUser, ha, ih h]

theorem findUser_updatePoints_ne (l : List User) (uid vid : Nat) (f : Nat → Nat)
    (h : vid ≠ uid) :
    findUser (updatePoints l uid f) vid = findUser l vid := by
  induction l with
  | nil => simp [updatePoints, findUser]
  | cons a rest ih =>
    by_cases ha : a.id = uid
    · simp [updatePoints, findUser, ha, h.symm]
    · by_cases hav : a.id = vid
      · simp [updatePoints, findUser, ha, hav, h]
      · simp [updatePoints, findUser, ha, hav, ih]

theorem pointsSum_updatePoints (l : List User) (uid : Nat) (f : Nat → Nat)
    (u : User) (h : findUser l uid = some u) :
    pointsSum (updatePoints l uid f) + u.points = pointsSum l + f u.points := by
  induction l with
  | nil => simp [findUser] at h
  | cons a rest ih =>
    by_cases ha : a.id = uid
    · simp [findUser, ha] at h
      subst h
      simp [updatePoints, pointsSum, ha]
      omega
    · simp [findUser, ha] at h
      have := ih h
      simp [updatePoints, pointsSum, ha]
      omega

theorem findBook_updateBooks_self (l : List Book) (bid : Nat) (f : Book → Book)
    (hid : ∀ x : Book, (f x).id = x.id) (b : Book) (h : findBook l bid = some b) :
    findBook (updateBooks l bid f) bid = some (f b) := by
  induction l with
  | nil => simp [findBook] at h
  | cons a rest ih =>
    by_cases ha : a.id = bid
    · simp [findBook, ha] at h
      subst h
      simp [updateBooks, findBook, ha, hid]
    · simp [findBook, ha] at h
      simp [updateBooks, findBook, ha, ih h]

theorem findExchange_id (l : List Exchange) (eid : Nat) (e : Exchange)
    (h : findExchange l eid = some e) : e.id = eid := by
  induction l with
  | nil => simp [findExchange] at h
  | cons a rest ih =>
    by_cases ha : a.id = eid
    · simp [findExchange, ha] at h
      subst h
      exact ha
    · simp [findExchange, ha] at h
      exact ih h

theorem findExchange_updateExchanges_self (l : List Exchange) (eid : Nat)
    (f : Exchange → Exchange) (hid : ∀ x : Exchange, (f x).id = x.id)
    (e : Exchange) (h : findExchange l eid = some e) :
    findExchange (updateExchanges l eid f) eid = some (f e) := by
  induction l with
  | nil => simp [findExchange] at h
  | cons a rest ih =>
    by_cases ha : a.id = eid
    · simp [findExchange, ha] at h
      subst h
      simp [updateExchanges, findExchange, ha, hid]
    · simp [findExchange, ha] at h
      simp [updateExchanges, findExchange, ha, ih h]

theorem mem_updateExchanges (l : List Exchange) (eid : Nat)
    (f : Exchange → Exchange) (x : Exchange) (h : x ∈ updateExchanges l eid f) :
    x ∈ l ∨ ∃ e, e ∈ l ∧ e.id = eid ∧ x = f e := by
  induction l with
  | nil => simp [updateExchanges] at h
  | cons a rest ih =>
    by_cases ha : a.id = eid
    · simp [updateExchanges, ha] at h
      rcases h with h | h
      · exact Or.inr ⟨a, List.mem_cons_self a rest, ha, h⟩
      · exact Or.inl (List.mem_cons_of_mem a h)
    · simp [updateExchanges, ha] at h
      rcases h with h | h
      · exact Or.inl (h ▸ List.mem_cons_self a rest)
      · rcases ih h with h' | ⟨e, he, heid, hx⟩
        · exact Or.inl (List.mem_cons_of_mem a h')
        · exact Or.inr ⟨e, List.mem_cons_of_mem a he, heid, hx⟩

theorem map_id_updateExchanges (l : List Exchange) (eid : Nat)
    (f : Exchange → Exchange) (hid : ∀ x : Exchange, (f x).id = x.id) :
    (updateExchanges l eid f).map Exchange.id = l.map Exchange.id := by
  induction l with
  | nil => simp [updateExchanges]
  | cons a rest ih =>
    by_cases ha : a.id = eid
    · simp [updateExchanges, ha, hid]
    · simp [updateExchanges, ha, ih]

theorem findExchange_removeExchanges_self (l : List Exchange) (eid : Nat) :
    findExchange (removeExchanges l eid) eid = none := by
  induction l with
  | nil => rfl
  | cons a rest ih =>
    by_cases ha : a.id = eid
    · simpa [removeExchanges, List.filter_cons, ha] using ih
    · simpa [removeExchanges, List.filter_cons, ha, findExchange] using ih

theorem approveExchange_ok_inv (s : St) (now eid cid : Nat) (s' : St)
    (h : approveExchange s now eid cid = .ok s') :
    ∃ e toU fromU b,
      findExchange s.exchanges eid = some e ∧
      cid = e.fromUserId ∧
      e.status = ExchangeStatus.REQUESTED ∧
      findUser s.users e.toUserId = some toU ∧
      findUser s.users e.fromUserId = some fromU ∧
      ¬ toU.points < e.pointsUsed ∧
      findBook s.books e.bookId = some b ∧
      s' = settle s e now := by
  unfold approveExchange at h
  cases hfe : findExchange s.exchanges eid with
  | none =>
    rw [hfe] at h
    exact Except.noConfusion h
  | some e =>
    rw [hfe] at h
    simp only at h
    by_cases hcid : cid = e.fromUserId
    · rw [if_pos hcid] at h
      by_cases hst : e.status = ExchangeStatus.REQUESTED
      · rw [if_pos hst] at h
        cases htu : findUser s.users e.toUserId with
        | none =>
          cases hfu : findUser s.users e.fromUserId <;>
            · rw [htu, hfu] at h
              simp only at h
              exact Except.noConfusion h
        | some toU =>
          cases hfu : findUser s.users e.fromUserId with
          | none =>
            rw [htu, hfu] at h
            simp only at h
            exact Except.noConfusion h
          | some fromU =>
            rw [htu, hfu] at h
            simp only at h
            by_cases hpts : toU.points < e.pointsUsed
            · rw [if_pos hpts] at h
              exact Except.noConfusion h
            · rw [if_neg hpts] at h
              cases hfb : findBook s.books e.bookId with
              | none =>
                rw [hfb] at h
                simp only at h
                exact Except.noConfusion h
              | some b =>
                rw [hfb] at h
                simp only at h
                injection h with h
                exact ⟨e, toU, fromU, b, rfl, hcid, hst, htu, hfu, hpts, hfb, h.symm⟩
      · rw [if_neg hst] at h
        exact Except.noConfusion h
    · rw [if_neg hcid] at h
      exact Except.noConfusion h

theorem bool_eq_false_of_ne_true {b : Bool} (h : ¬ b = true) : b = false := by
  cases b
  · rfl
  · exact absurd rfl h

theorem requestExchange_ok_inv (s : St) (now bid uid : Nat) (s' : St) (ex : Exchange)
    (h : requestExchange s now bid uid = .ok (s', ex)) :
    ∃ u b,
      findUser s.users uid = some u ∧
      findBook s.books bid = some b ∧
      uid ≠ b.currentOwnerId ∧
      b.isAvailable = true ∧
      hasActiveExchange s.exchanges bid = false ∧
      ¬ u.points < b.computedPoints.getD fallbackPoints ∧
      repeatBlocked s.exchanges now b.currentOwnerId uid = false ∧
      circularBlocked s.exchanges now bid b.currentOwnerId = false ∧
      ex = { id := s.nextExchangeId, bookId := bid,
             fromUserId := b.currentOwnerId, toUserId := uid,
             pointsUsed := b.computedPoints.getD fallbackPoints,
             status := .REQUESTED, createdAt := now, completedAt := none } ∧
      s' = { s with exchanges := s.exchanges ++ [ex],
                    nextExchangeId := s.nextExchangeId + 1 } := by
  unfold requestExchange at h
  cases hu : findUser s.users uid with
  | none =>
    rw [hu] at h
    exact Except.noConfusion h
  | some u =>
    rw [hu] at h
    simp only at h
    cases hb : findBook s.books bid with
    | none =>
      rw [hb] at h
      exact Except.noConfusion h
    | some b =>
      rw [hb] at h
      simp only at h
      by_cases hself : uid = b.currentOwnerId
      · rw [if_pos hself] at h
        exact Except.noConfusion h
      · rw [if_neg hself] at h
        cases hav : b.isAvailable with
        | false =>
          rw [hav] at h
          simp only [Bool.not_false, if_true] at h
          exact Except.noConfusion h
        | true =>
          rw [hav] at h
          simp only [Bool.not_true, Bool.false_eq_true, if_false] at h
          by_cases hact : hasActiveExchange s.exchanges bid = true
          · rw [if_pos hact] at h
            exact Except.noConfusion h
          · rw [if_neg hact] at h
            by_cases hpts : u.points < b.computedPoints.getD fallbackPoints
            · rw [if_pos hpts] at h
              exact Except.noConfusion h
            · rw [if_neg hpts] at h
              by_cases hrep : repeatBlocked s.exchanges now b.currentOwnerId uid = true
              · rw [if_pos hrep] at h
                exact Except.noConfusion h
              · rw [if_neg hrep] at h
                by_cases hcirc : circularBlocked s.exchanges now bid b.currentOwnerId = true
                · rw [if_pos hcirc] at h
                  exact Except.noConfusion h
                · rw [if_neg hcirc] at h
                  injection h with h
                  rw [Prod.mk.injEq] at h
                  obtain ⟨h1, h2⟩ := h
                  refine ⟨u, b, rfl, rfl, hself, hav, bool_eq_false_of_ne_true hact,
                    hpts, bool_eq_false_of_ne_true hrep, bool_eq_false_of_ne_true hcirc,
                    h2.symm, ?_⟩
                  rw [← h1, ← h2]

theorem rejectExchange_ok_inv (s : St) (eid cid : Nat) (s' : St)
    (h : rejectExchange s eid cid = .ok s') :
    ∃ e, findExchange s.exchanges eid = some e ∧
      cid = e.fromUserId ∧ e.status = ExchangeStatus.REQUESTED ∧
      s' = { s with exchanges :=
               updateExchanges s.exchanges e.id (fun x => { x with status := .REJECTED }) } := by
  unfold rejectExchange at h
  cases hfe : findExchange s.exchanges eid with
  | none =>
    rw [hfe] at h
    exact Except.noConfusion h
  | some e =>
    rw [hfe] at h
    simp only at h
    by_cases hcid : cid = e.fromUserId
    · rw [if_pos hcid] at h
      by_cases hst : e.status = ExchangeStatus.REQUESTED
      · rw [if_pos hst] at h
        injection h with h
        exact ⟨e, rfl, hcid, hst, h.symm⟩
      · rw [if_neg hst] at h
        exact Except.noConfusion h
    · rw [if_neg hcid] at h
      exact Except.noConfusion h

theorem cancelExchange_ok_inv (s : St) (eid cid : Nat) (s' : St)
    (h : cancelExchange s eid cid = .ok s') :
    ∃ e, findExchange s.exchanges eid = some e ∧
      cid = e.toUserId ∧ e.status = ExchangeStatus.REQUESTED ∧
      s' = { s with exchanges := removeExchanges s.exchanges e.id } := by
  unfold cancelExchange at h
  cases hfe : findExchange s.exchanges eid with
  | none =>
    rw [hfe] at h
    exact Except.noConfusion h
  | some e =>
    rw [hfe] at h
    simp only at h
    by_cases hcid : cid = e.toUserId
    · rw [if_pos hcid] at h
      by_cases hst : e.status = ExchangeStatus.REQUESTED
      · rw [if_pos hst] at h
        injection h with h
        exact ⟨e, rfl, hcid, hst, h.symm⟩
      · rw [if_neg hst] at h
        exact Except.noConfusion h
    · rw [if_neg hcid] at h
      exact Except.noConfusion h

theorem disputeExchange_ok_inv (s : St) (eid cid : Nat) (s' : St)
    (h : disputeExchange s eid cid = .ok s') :
    ∃ e, findExchange s.exchanges eid = some e ∧
      s' = { s with exchanges :=
               updateExchanges s.exchanges e.id (fun x => { x with status := .DISPUTED }) } := by
  unfold disputeExchange at h
  cases hfe : findExchange s.exchanges eid with
  | none =>
    rw [hfe] at h
    exact Except.noConfusion h
  | some e =>
    rw [hfe] at h
    simp only at h
    by_cases hcid : cid = e.fromUserId ∨ cid = e.toUserId
    · rw [if_pos hcid] at h
      by_cases hst : e.status = ExchangeStatus.COMPLETED ∨ e.status = ExchangeStatus.APPROVED
      · rw [if_pos hst] at h
        injection h with h
        exact ⟨e, rfl, h.symm⟩
      · rw [if_neg hst] at h
        exact Except.noConfusion h
    · rw [if_neg hcid] at h
      exact Except.noConfusion h

theorem addBook_ok_inv (s : St) (session : Option Nat) (d : BookData)
    (s' : St) (b : Book) (h : addBook s session d = .ok (s', b)) :
    ∃ uid, session = some uid ∧
      b = { id := s.nextBookId, title := strTrim d.title, author := strTrim d.author,
            description := d.description.map strTrim,
            condition := d.condition, images := d.images.getD [],
            location := strTrim d.location,
            currentOwnerId := uid, isAvailable := true, computedPoints := none } ∧
      s' = { s with books := s.books ++ [b], nextBookId := s.nextBookId + 1 } := by
  unfold addBook at h
  cases session with
  | none => exact Except.noConfusion h
  | some uid =>
    simp only at h
    by_cases hmf : d.title = "" ∨ d.author = "" ∨ d.location = ""
    · rw [if_pos hmf] at h
      exact Except.noConfusion h
    · rw [if_neg hmf] at h
      by_cases hef : strTrim d.title = "" ∨ strTrim d.author = ""
      · rw [if_pos hef] at h
        exact Except.noConfusion h
      · rw [if_neg hef] at h
        cases hu : findUser s.users uid with
        | none =>
          rw [hu] at h
          exact Except.noConfusion h
        | some u =>
          rw [hu] at h
          simp only at h
          injection h with h
          rw [Prod.mk.injEq] at h
          obtain ⟨h1, h2⟩ := h
          refine ⟨uid, rfl, h2.symm, ?_⟩
          rw [← h1, ← h2]

theorem deleteBook_ok_inv (s : St) (session : Option Nat) (bid : Nat) (s' : St)
    (h : deleteBook s session bid = .ok s') :
    s'.exchanges = s.exchanges ∧ s'.nextExchangeId = s.nextExchangeId := by
  unfold deleteBook dbDeleteBook at h
  cases session with
  | none => exact Except.noConfusion h
  | some uid =>
    simp only at h
    cases hb : findBook s.books bid with
    | none =>
      rw [hb] at h
      exact Except.noConfusion h
    | some b =>
      rw [hb] at h
      simp only at h
      by_cases hown : b.currentOwnerId = uid
      · rw [if_pos hown] at h
        by_cases hany : s.exchanges.any (fun e => e.bookId == bid) = true
        · rw [if_pos hany] at h
          exact Except.noConfusion h
        · rw [if_neg hany] at h
          injection h with h
          rw [← h]
          exact ⟨rfl, rfl⟩
      · rw [if_neg hown] at h
        exact Except.noConfusion h

theorem updateBookAvailability_ok_inv (s : St) (session : Option Nat)
    (bid : Nat) (avail : Bool) (s' : St)
    (h : updateBookAvailability s session bid avail = .ok s') :
    s'.exchanges = s.exchanges ∧ s'.nextExchangeId = s.nextExchangeId := by
  unfold updateBookAvailability at h
  cases session with
  | none => exact Except.noConfusion h
  | some uid =>
    simp only at h
    cases hb : findBook s.books bid with
    | none =>
      rw [hb] at h
      exact Except.noConfusion h
    | some b =>
      rw [hb] at h
      simp only at h
      by_cases hown : b.currentOwnerId = uid
      · rw [if_pos hown] at h
        injection h with h
        rw [← h]
        exact ⟨rfl, rfl⟩
      · rw [if_neg hown] at h
        exact Except.noConfusion h

theorem hasActive_false_all (l : List Exchange) (bid : Nat)
    (h : hasActiveExchange l bid = false) :
    ∀ x ∈ l, x.bookId = bid → isActive x.status = false := by
  intro x hx hb
  unfold hasActiveExchange at h
  rw [List.any_eq_false] at h
  have hxp := h x hx
  simp [hb] at hxp
  exact hxp

theorem ExchInv_updateExchanges (s : St) (eid : Nat) (f : Exchange → Exchange)
    (hid : ∀ x : Exchange, (f x).id = x.id)
    (hin : ∀ x : Exchange, isActive (f x).status = false)
    (h : ExchInv s) :
    ExchInv { s with exchanges := updateExchanges s.exchanges eid f } := by
  obtain ⟨hlt, hnd, huniq⟩ := h
  refine ⟨?_, ?_, ?_⟩
  · intro x hx
    rcases mem_updateExchanges s.exchanges eid f x hx with hx' | ⟨e, he, _, hxe⟩
    · exact hlt x hx'
    · show x.id < s.nextExchangeId
      rw [hxe, hid]
      exact hlt e he
  · show ((updateExchanges s.exchanges eid f).map Exchange.id).Nodup
    rw [map_id_updateExchanges s.exchanges eid f hid]
    exact hnd
  · intro e₁ h₁ e₂ h₂ ha₁ ha₂ hbook
    rcases mem_updateExchanges s.exchanges eid f e₁ h₁ with m₁ | ⟨x₁, _, _, hfe₁⟩
    · rcases mem_updateExchanges s.exchanges eid f e₂ h₂ with m₂ | ⟨x₂, _, _, hfe₂⟩
      · exact huniq e₁ m₁ e₂ m₂ ha₁ ha₂ hbook
      · rw [hfe₂, hin x₂] at ha₂
        exact Bool.noConfusion ha₂
    · rw [hfe₁, hin x₁] at ha₁
      exact Bool.noConfusion ha₁

theorem ExchInv_sublist (s : St) (l' : List Exchange)
    (hsub : l'.Sublist s.exchanges) (h : ExchInv s) :
    ExchInv { s with exchanges := l' } := by
  obtain ⟨hlt, hnd, huniq⟩ := h
  refine ⟨?_, ?_, ?_⟩
  · intro x hx
    exact hlt x (hsub.subset hx)
  · exact (hsub.map Exchange.id).nodup hnd
  · intro e₁ h₁ e₂ h₂ ha₁ ha₂ hbook
    exact huniq e₁ (hsub.subset h₁) e₂ (hsub.subset h₂) ha₁ ha₂ hbook

theorem ExchInv_same_exchanges (s s' : St)
    (hex : s'.exchanges = s.exchanges) (hnid : s'.nextExchangeId = s.nextExchangeId)
    (h : ExchInv s) : ExchInv s' := by
  obtain ⟨hlt, hnd, huniq⟩ := h
  refine ⟨?_, ?_, ?_⟩
  · intro x hx
    rw [hex] at hx
    rw [hnid]
    exact hlt x hx
  · rw [hex]
    exact hnd
  · intro e₁ h₁ e₂ h₂ ha₁ ha₂ hbook
    rw [hex] at h₁ h₂
    exact huniq e₁ h₁ e₂ h₂ ha₁ ha₂ hbook

theorem ExchInv_append (s : St) (ex : Exchange)
    (hexid : ex.id = s.nextExchangeId)
    (hnoact : ∀ x ∈ s.exchanges, x.bookId = ex.bookId → isActive x.status = false)
    (h : ExchInv s) :
    ExchInv { s with exchanges := s.exchanges ++ [ex],
                     nextExchangeId := s.nextExchangeId + 1 } := by
  obtain ⟨hlt, hnd, huniq⟩ := h
  refine ⟨?_, ?_, ?_⟩
  · intro x hx
    show x.id < s.nextExchangeId + 1
    rcases List.mem_append.mp hx with hx' | hx'
    · exact Nat.lt_succ_of_lt (hlt x hx')
    · rw [List.mem_singleton.mp hx', hexid]
      exact Nat.lt_succ_self _
  · show ((s.exchanges ++ [ex]).map Exchange.id).Nodup
    rw [List.map_append]
    rw [List.nodup_append]
    refine ⟨hnd, List.nodup_singleton _, ?_⟩
    intro y hy hy'
    rcases List.mem_map.mp hy with ⟨x, hx, hxy⟩
    have h1 : y = ex.id := List.mem_singleton.mp hy'
    have h2 : x.id < s.nextExchangeId := hlt x hx
    rw [hxy, h1, hexid] at h2
    exact Nat.lt_irrefl _ h2
  · intro e₁ h₁ e₂ h₂ ha₁ ha₂ hbook
    rcases List.mem_append.mp h₁ with m₁ | m₁
    · rcases List.mem_append.mp h₂ with m₂ | m₂
      · exact huniq e₁ m₁ e₂ m₂ ha₁ ha₂ hbook
      · rw [List.mem_singleton.mp m₂] at hbook
        rw [hnoact e₁ m₁ hbook] at ha₁
        exact Bool.noConfusion ha₁
    · rcases List.mem_append.mp h₂ with m₂ | m₂
      · rw [List.mem_singleton.mp m₁] at hbook
        rw [hnoact e₂ m₂ hbook.symm] at ha₂
        exact Bool.noConfusion ha₂
      · rw [List.mem_singleton.mp m₁, List.mem_singleton.mp m₂]

theorem step_preserves_ExchInv (s s' : St) (hstep : Step s s') (h : ExchInv s) :
    ExchInv s' := by
  cases hstep with
  | request now bid uid ex hok =>
    obtain ⟨u, b, _, _, _, _, hact, _, _, _, hex, hs'⟩ :=
      requestExchange_ok_inv s now bid uid s' ex hok
    subst hs'
    refine ExchInv_append s ex ?_ ?_ h
    · rw [hex]
    · intro x hx hbk
      have hexb : ex.bookId = bid := by rw [hex]
      exact hasActive_false_all s.exchanges bid hact x hx (hbk.trans hexb)
  | approve now eid cid hok =>
    obtain ⟨e, toU, fromU, b, _, _, _, _, _, _, _, hs'⟩ :=
      approveExchange_ok_inv s now eid cid s' hok
    subst hs'
    exact ExchInv_same_exchanges _ _ rfl rfl
      (ExchInv_updateExchanges s e.id
        (fun x => { x with status := .COMPLETED, completedAt := some now })
        (fun x => rfl) (fun x => rfl) h)
  | reject eid cid hok =>
    obtain ⟨e, _, _, _, hs'⟩ := rejectExchange_ok_inv s eid cid s' hok
    subst hs'
    exact ExchInv_updateExchanges s e.id (fun x => { x with status := .REJECTED })
      (fun x => rfl) (fun x => rfl) h
  | cancel eid cid hok =>
    obtain ⟨e, _, _, _, hs'⟩ := cancelExchange_ok_inv s eid cid s' hok
    subst hs'
    exact ExchInv_sublist s (removeExchanges s.exchanges e.id)
      (List.filter_sublist s.exchanges) h
  | dispute eid cid hok =>
    obtain ⟨e, _, hs'⟩ := disputeExchange_ok_inv s eid cid s' hok
    subst hs'
    exact ExchInv_updateExchanges s e.id (fun x => { x with status := .DISPUTED })
      (fun x => rfl) (fun x => rfl) h
  | book_add session d b hok =>
    obtain ⟨uid, _, _, hs'⟩ := addBook_ok_inv s session d s' b hok
    subst hs'
    exact ExchInv_same_exchanges s _ rfl rfl h
  | book_delete session bid hok =>
    obtain ⟨hex, hnid⟩ := deleteBook_ok_inv s session bid s' hok
    exact ExchInv_same_exchanges s s' hex hnid h
  | book_avail session bid avail hok =>
    obtain ⟨hex, hnid⟩ := updateBookAvailability_ok_inv s session bid avail s' hok
    exact ExchInv_same_exchanges s s' hex hnid h

theorem ExchInv_of_no_exchanges (s : St) (h : s.exchanges = []) : ExchInv s := by
  refine ⟨?_, ?_, ?_⟩
  · intro e he
    rw [h] at he
    cases he
  · rw [h]
    exact List.nodup_nil
  · intro e₁ h₁ e₂ h₂ _ _ _
    rw [h] at h₁
    cases h₁

theorem reachable_ExchInv (s0 s : St) (h0 : ExchInv s0) (h : Reachable s0 s) :
    ExchInv s := by
  induction h with
  | refl => exact h0
  | tail _ hstep ih => exact step_preserves_ExchInv _ _ hstep ih

/-- Claim C1: for a REQUESTED exchange, a successful approveExchange by
the owner makes all four settlement effects observable together (requester
debited by pointsUsed, owner credited by pointsUsed, book ownership moved
to the requester, status COMPLETED with completedAt set), while any error
leaves the observable state untouched. -/
theorem approve_success_settles_all_or_nothing (s : St) (now eid cid : Nat) :
    (∀ (s' : St) (e : Exchange) (toU fromU : User) (b : Book),
      findExchange s.exchanges eid = some e →
      e.fromUserId ≠ e.toUserId →
      findUser s.users e.toUserId = some toU →
      findUser s.users e.fromUserId = some fromU →
      findBook s.books e.bookId = some b →
      approveExchange s now eid cid = .ok s' →
      findUser s'.users e.toUserId =
        some { toU with points := toU.points - e.pointsUsed } ∧
      findUser s'.users e.fromUserId =
        some { fromU with points := fromU.points + e.pointsUsed } ∧
      findBook s'.books e.bookId =
        some { b with currentOwnerId := e.toUserId, isAvailable := true } ∧
      findExchange s'.exchanges eid =
        some { e with status := .COMPLETED, completedAt := some now }) ∧
    (∀ err : ExchangeError,
      approveExchange s now eid cid = .error err → approveRun s now eid cid = s) := by
  constructor
  · intro s' e toU fromU b hfe hne htu hfu hfb hok
    obtain ⟨e', toU', fromU', b', hfe', _, _, _, _, _, _, hs'⟩ :=
      approveExchange_ok_inv s now eid cid s' hok
    have hee : e = e' := Option.some.inj (hfe.symm.trans hfe')
    subst hee
    subst hs'
    have heid : e.id = eid := findExchange_id s.exchanges eid e hfe
    subst heid
    refine ⟨?_, ?_, ?_, ?_⟩
    · show findUser
        (updatePoints (updatePoints s.users e.toUserId (fun p => p - e.pointsUsed))
          e.fromUserId (fun p => p + e.pointsUsed)) e.toUserId = _
      rw [findUser_updatePoints_ne _ e.fromUserId e.toUserId _ hne.symm]
      exact findUser_updatePoints_self s.users e.toUserId _ toU htu
    · show findUser
        (updatePoints (updatePoints s.users e.toUserId (fun p => p - e.pointsUsed))
          e.fromUserId (fun p => p + e.pointsUsed)) e.fromUserId = _
      have hfu2 : findUser
          (updatePoints s.users e.toUserId (fun p => p - e.pointsUsed))
          e.fromUserId = some fromU := by
        rw [findUser_updatePoints_ne _ e.toUserId e.fromUserId _ hne]
        exact hfu
      exact findUser_updatePoints_self _ e.fromUserId _ fromU hfu2
    · exact findBook_updateBooks_self s.books e.bookId
        (fun x => { x with currentOwnerId := e.toUserId, isAvailable := true })
        (fun x => rfl) b hfb
    · exact findExchange_updateExchanges_self s.exchanges e.id
        (fun x => { x with status := ExchangeStatus.COMPLETED, completedAt := some now })
        (fun x => rfl) e hfe
  · intro err herr
    simp only [approveRun, herr]

/-- Claim C1 witness: concrete settlement of the demo REQUESTED exchange. -/
theorem approve_success_settles_all_or_nothing_witness :
    findUser (settle stReq exReq 5).users exReq.toUserId =
      some { bob with points := bob.points - exReq.pointsUsed } ∧
    findUser (settle stReq exReq 5).users exReq.fromUserId =
      some { alice with points := alice.points + exReq.pointsUsed } ∧
    findBook (settle stReq exReq 5).books exReq.bookId =
      some { bookX with currentOwnerId := exReq.toUserId, isAvailable := true } ∧
    findExchange (settle stReq exReq 5).exchanges 1 =
      some { exReq with status := .COMPLETED, completedAt := some 5 } :=
  (approve_success_settles_all_or_nothing stReq 5 1 1).1
    (settle stReq exReq 5) exReq bob alice bookX
    (by decide) (by decide) (by decide) (by decide) (by decide) rfl

/-- Claim C2: for an exchange completed via approveExchange, the
requester's balance drops by exactly pointsUsed, the owner's balance rises
by exactly pointsUsed, and the sum of all balances is unchanged. -/
theorem settlement_conserves_total_points (s : St) (now eid cid : Nat) :
    ∀ (s' : St) (e : Exchange) (toU fromU : User),
      findExchange s.exchanges eid = some e →
      e.fromUserId ≠ e.toUserId →
      findUser s.users e.toUserId = some toU →
      findUser s.users e.fromUserId = some fromU →
      approveExchange s now eid cid = .ok s' →
      e.pointsUsed ≤ toU.points ∧
      (findUser s'.users e.toUserId).map User.points =
        some (toU.points - e.pointsUsed) ∧
      (findUser s'.users e.fromUserId).map User.points =
        some (fromU.points + e.pointsUsed) ∧
      totalPoints s' = totalPoints s := by
  intro s' e toU fromU hfe hne htu hfu hok
  obtain ⟨e', toU', fromU', b', hfe', _, _, htu', _, hpts', _, hs'⟩ :=
    approveExchange_ok_inv s now eid cid s' hok
  have hee : e = e' := Option.some.inj (hfe.symm.trans hfe')
  subst hee
  have htt : toU = toU' := Option.some.inj (htu.symm.trans htu')
  subst htt
  subst hs'
  have hfu2 : findUser
      (updatePoints s.users e.toUserId (fun p => p - e.pointsUsed))
      e.fromUserId = some fromU := by
    rw [findUser_updatePoints_ne _ e.toUserId e.fromUserId _ hne]
    exact hfu
  have h1 := pointsSum_updatePoints s.users e.toUserId
    (fun p => p - e.pointsUsed) toU htu
  have h2 := pointsSum_updatePoints
    (updatePoints s.users e.toUserId (fun p => p - e.pointsUsed))
    e.fromUserId (fun p => p + e.pointsUsed) fromU hfu2
  have hle : e.pointsUsed ≤ toU.points := Nat.le_of_not_lt hpts'
  refine ⟨hle, ?_, ?_, ?_⟩
  · show (findUser
      (updatePoints (updatePoints s.users e.toUserId (fun p => p - e.pointsUsed))
        e.fromUserId (fun p => p + e.pointsUsed)) e.toUserId).map User.points = _
    rw [findUser_updatePoints_ne _ e.fromUserId e.toUserId _ hne.symm,
      findUser_updatePoints_self s.users e.toUserId _ toU htu]
    rfl
  · show (findUser
      (updatePoints (updatePoints s.users e.toUserId (fun p => p - e.pointsUsed))
        e.fromUserId (fun p => p + e.pointsUsed)) e.fromUserId).map User.points = _
    rw [findUser_updatePoints_self _ e.fromUserId _ fromU hfu2]
    rfl
  · show pointsSum
      (updatePoints (updatePoints s.users e.toUserId (fun p => p - e.pointsUsed))
        e.fromUserId (fun p => p + e.pointsUsed)) = pointsSum s.users
    simp only at h1 h2
    omega

/-- Claim C2 witness: concrete conservation across the demo settlement. -/
theorem settlement_conserves_total_points_witness :
    exReq.pointsUsed ≤ bob.points ∧
    (findUser (settle stReq exReq 5).users exReq.toUserId).map User.points =
      some (bob.points - exReq.pointsUsed) ∧
    (findUser (settle stReq exReq 5).users exReq.fromUserId).map User.points =
      some (alice.points + exReq.pointsUsed) ∧
    totalPoints (settle stReq exReq 5) = totalPoints stReq :=
  settlement_conserves_total_points stReq 5 1 1
    (settle stReq exReq 5) exReq bob alice
    (by decide) (by decide) (by decide) (by decide) rfl

/-- Claim C3: in every state reachable from an exchange-free state, no two
distinct exchange rows for the same book are both ACTIVE (REQUESTED or
APPROVED); and requestExchange on a book that already has an active
exchange fails with activeExchangeExists. -/
theorem single_active_exchange_per_book :
    (∀ s0 s : St, s0.exchanges = [] → Reachable s0 s →
      ∀ e₁ ∈ s.exchanges, ∀ e₂ ∈ s.exchanges,
        isActive e₁.status = true → isActive e₂.status = true →
        e₁.bookId = e₂.bookId → e₁ = e₂) ∧
    (∀ (s : St) (now bid uid : Nat) (u : User) (b : Book),
      findUser s.users uid = some u → findBook s.books bid = some b →
      uid ≠ b.currentOwnerId → b.isAvailable = true →
      hasActiveExchange s.exchanges bid = true →
      requestExchange s now bid uid = .error .activeExchangeExists) := by
  constructor
  · intro s0 s h0 hreach
    exact (reachable_ExchInv s0 s (ExchInv_of_no_exchanges s0 h0) hreach).2.2
  · intro s now bid uid u b hu hb hself hav hact
    unfold requestExchange
    rw [hu, hb]
    simp only
    rw [if_neg hself, hav]
    simp only [Bool.not_true, Bool.false_eq_true, if_false]
    rw [if_pos hact]

/-- Claim C3 witness: the demo request step keeps the invariant, and a
second request for the same book is rejected. -/
theorem single_active_exchange_per_book_witness :
    exReq = exReq ∧
    requestExchange stReq 50 1 2 = .error .activeExchangeExists :=
  ⟨single_active_exchange_per_book.1 stBase stReq rfl
      (Relation.ReflTransGen.single (Step.request stBase stReq 0 1 2 exReq rfl))
      exReq (by decide) exReq (by decide) (by decide) (by decide) rfl,
   single_active_exchange_per_book.2 stReq 50 1 2 bob bookX
      (by decide) (by decide) (by decide) (by decide) (by decide)⟩

/-- Claim C4: approving a REQUESTED exchange whose requester balance is
below pointsUsed at approval time fails with
insufficientPointsAtSettlement, the exchange stays REQUESTED and the
observable state is untouched: the balance is re-read from the current
state inside the settlement, not assumed from request-time admission. -/
theorem approve_rechecks_balance_at_settlement
    (s : St) (now eid cid : Nat) (e : Exchange) (toU fromU : User)
    (hfe : findExchange s.exchanges eid = some e)
    (hcid : cid = e.fromUserId)
    (hst : e.status = ExchangeStatus.REQUESTED)
    (htu : findUser s.users e.toUserId = some toU)
    (hfu : findUser s.users e.fromUserId = some fromU)
    (hlow : toU.points < e.pointsUsed) :
    approveExchange s now eid cid = .error .insufficientPointsAtSettlement ∧
    approveRun s now eid cid = s ∧
    findExchange (approveRun s now eid cid).exchanges eid = some e ∧
    e.status = ExchangeStatus.REQUESTED := by
  have herr : approveExchange s now eid cid = .error .insufficientPointsAtSettlement := by
    unfold approveExchange
    rw [hfe]
    simp only
    rw [if_pos hcid, if_pos hst, htu, hfu]
    simp only
    rw [if_pos hlow]
  have hrun : approveRun s now eid cid = s := by
    simp only [approveRun, herr]
  exact ⟨herr, hrun, by rw [hrun]; exact hfe, hst⟩

/-- Claim C4 witness: the demo exchange with a dropped balance aborts. -/
theorem approve_rechecks_balance_at_settlement_witness :
    approveExchange stPoor 9 1 1 = .error .insufficientPointsAtSettlement ∧
    approveRun stPoor 9 1 1 = stPoor ∧
    findExchange (approveRun stPoor 9 1 1).exchanges 1 = some exReq ∧
    exReq.status = ExchangeStatus.REQUESTED :=
  approve_rechecks_balance_at_settlement stPoor 9 1 1 exReq bobPoor alice
    (by decide) (by decide) (by decide) (by decide) (by decide) (by decide)

/-- Claim C5: when the caller is the book's current owner, requestExchange
always fails with selfExchangeForbidden — no availability or balance
hypothesis is needed because the self-exchange check runs before the
availability and balance checks — and no state is created or mutated. -/
theorem self_exchange_always_forbidden
    (s : St) (now bid uid : Nat) (u : User) (b : Book)
    (hu : findUser s.users uid = some u)
    (hb : findBook s.books bid = some b)
    (hown : b.currentOwnerId = uid) :
    requestExchange s now bid uid = .error .selfExchangeForbidden ∧
    requestRun s now bid uid = s := by
  have herr : requestExchange s now bid uid = .error .selfExchangeForbidden := by
    unfold requestExchange
    rw [hu, hb]
    simp only
    rw [if_pos hown.symm]
  exact ⟨herr, by simp only [requestRun, herr]⟩

/-- Claim C5 witness: the demo owner requesting an unavailable version of
the owned book is still rejected as a self exchange. -/
theorem self_exchange_always_forbidden_witness :
    requestExchange stBase 0 1 1 = .error .selfExchangeForbidden ∧
    requestRun stBase 0 1 1 = stBase :=
  self_exchange_always_forbidden stBase 0 1 1 alice bookX
    (by decide) (by decide) (by decide)

/-- Claim C6: a successful requestExchange leaves every balance and every
book row untouched, and a later reject (by the owner) or cancel (by the
requester) also leaves them untouched, so after reject or cancel the
balances and the book's currentOwnerId and isAvailable are exactly what
they were before the request; only the exchange row changes, to REJECTED
on reject, or is deleted on cancel. -/
theorem reject_cancel_leave_balances_and_book_unchanged :
    (∀ (s : St) (now bid uid : Nat) (s' : St) (ex : Exchange),
      requestExchange s now bid uid = .ok (s', ex) →
      s'.users = s.users ∧ s'.books = s.books) ∧
    (∀ (s : St) (eid cid : Nat) (s' : St),
      rejectExchange s eid cid = .ok s' →
      s'.users = s.users ∧ s'.books = s.books ∧
      ∀ e, findExchange s.exchanges eid = some e →
        findExchange s'.exchanges eid = some { e with status := .REJECTED }) ∧
    (∀ (s : St) (eid cid : Nat) (s' : St),
      cancelExchange s eid cid = .ok s' →
      s'.users = s.users ∧ s'.books = s.books ∧
      findExchange s'.exchanges eid = none) := by
  refine ⟨?_, ?_, ?_⟩
  · intro s now bid uid s' ex hok
    obtain ⟨u, b, _, _, _, _, _, _, _, _, _, hs'⟩ :=
      requestExchange_ok_inv s now bid uid s' ex hok
    subst hs'
    exact ⟨rfl, rfl⟩
  · intro s eid cid s' hok
    obtain ⟨e0, hfe0, _, _, hs'⟩ := rejectExchange_ok_inv s eid cid s' hok
    have heid : e0.id = eid := findExchange_id s.exchanges eid e0 hfe0
    subst heid
    subst hs'
    refine ⟨rfl, rfl, ?_⟩
    intro e hfe
    have hee : e0 = e := Option.some.inj (hfe0.symm.trans hfe)
    subst hee
    exact findExchange_updateExchanges_self s.exchanges e0.id
      (fun x => { x with status := ExchangeStatus.REJECTED }) (fun x => rfl) e0 hfe0
  · intro s eid cid s' hok
    obtain ⟨e0, hfe0, _, _, hs'⟩ := cancelExchange_ok_inv s eid cid s' hok
    have heid : e0.id = eid := findExchange_id s.exchanges eid e0 hfe0
    subst heid
    subst hs'
    exact ⟨rfl, rfl, findExchange_removeExchanges_self s.exchanges e0.id⟩

/-- Claim C6 witness: concrete request, reject and cancel on the demo
state, with balances and the book row unchanged. -/
theorem reject_cancel_leave_balances_and_book_unchanged_witness :
    (stReq.users = stBase.users ∧ stReq.books = stBase.books) ∧
    (({ stReq with exchanges := updateExchanges stReq.exchanges 1 (fun x => { x with status := ExchangeStatus.REJECTED }) } : St).users
        = stReq.users ∧
     findExchange ({ stReq with exchanges := updateExchanges stReq.exchanges 1 (fun x => { x with status := ExchangeStatus.REJECTED }) } : St).exchanges 1 =
        some { exReq with status := ExchangeStatus.REJECTED }) ∧
    (({ stReq with exchanges := removeExchanges stReq.exchanges 1 } : St).users
        = stReq.users ∧
     findExchange ({ stReq with exchanges := removeExchanges stReq.exchanges 1 } : St).exchanges 1 = none) :=
  have hreq := reject_cancel_leave_balances_and_book_unchanged.1
    stBase 0 1 2 stReq exReq rfl
  have hrej := reject_cancel_leave_balances_and_book_unchanged.2.1 stReq 1 1
    { stReq with exchanges := updateExchanges stReq.exchanges 1 (fun x => { x with status := ExchangeStatus.REJECTED }) } rfl
  have hcan := reject_cancel_leave_balances_and_book_unchanged.2.2 stReq 1 2
    { stReq with exchanges := removeExchanges stReq.exchanges 1 } rfl
  ⟨⟨hreq.1, hreq.2⟩, ⟨hrej.1, hrej.2.2 exReq rfl⟩, ⟨hcan.1, hcan.2.2⟩⟩

/-- Claim C7: a completed-or-active exchange between the exact ordered
pair (owner, requester) inside the trailing 7-day window makes the next
requestExchange of that pair fail with repeatExchangeBlocked; once every
such record is outside the window, the same pair's request succeeds
provided the other admission checks pass. -/
theorem repeat_pair_cooldown_blocks_then_allows :
    (∀ (s : St) (now bid uid : Nat) (u : User) (b : Book) (e : Exchange),
      findUser s.users uid = some u → findBook s.books bid = some b →
      uid ≠ b.currentOwnerId → b.isAvailable = true →
      hasActiveExchange s.exchanges bid = false →
      b.computedPoints.getD fallbackPoints ≤ u.points →
      e ∈ s.exchanges → e.fromUserId = b.currentOwnerId → e.toUserId = uid →
      countsForRepeat e.status = true → now - e.createdAt < cooldownWindowMs →
      requestExchange s now bid uid = .error .repeatExchangeBlocked) ∧
    (∀ (s : St) (now bid uid : Nat) (u : User) (b : Book),
      findUser s.users uid = some u → findBook s.books bid = some b →
      uid ≠ b.currentOwnerId → b.isAvailable = true →
      hasActiveExchange s.exchanges bid = false →
      b.computedPoints.getD fallbackPoints ≤ u.points →
      (∀ e ∈ s.exchanges, e.fromUserId = b.currentOwnerId → e.toUserId = uid →
        countsForRepeat e.status = true → cooldownWindowMs ≤ now - e.createdAt) →
      circularBlocked s.exchanges now bid b.currentOwnerId = false →
      ∃ p, requestExchange s now bid uid = .ok p) := by
  constructor
  · intro s now bid uid u b e hu hb hself hav hact hpts he hef het hcnt hwin
    have hrep : repeatBlocked s.exchanges now b.currentOwnerId uid = true := by
      unfold repeatBlocked
      rw [List.any_eq_true]
      exact ⟨e, he, by simp [hef, het, hcnt, hwin]⟩
    unfold requestExchange
    rw [hu, hb]
    simp only
    rw [if_neg hself, hav]
    simp only [Bool.not_true, Bool.false_eq_true, if_false]
    rw [hact]
    simp only [Bool.false_eq_true, if_false]
    rw [if_neg (Nat.not_lt.mpr hpts), if_pos hrep]
  · intro s now bid uid u b hu hb hself hav hact hpts helapsed hcirc
    have hrep : repeatBlocked s.exchanges now b.currentOwnerId uid = false := by
      unfold repeatBlocked
      rw [List.any_eq_false]
      intro x hx hpx
      simp only [Bool.and_eq_true, beq_iff_eq, decide_eq_true_eq] at hpx
      obtain ⟨⟨⟨hf, ht⟩, hc⟩, hw⟩ := hpx
      have := helapsed x hx hf ht hc
      omega
    unfold requestExchange
    rw [hu, hb]
    simp only
    rw [if_neg hself, hav]
    simp only [Bool.not_true, Bool.false_eq_true, if_false]
    rw [hact]
    simp only [Bool.false_eq_true, if_false]
    rw [if_neg (Nat.not_lt.mpr hpts)]
    rw [hrep]
    simp only [Bool.false_eq_true, if_false]
    rw [hcirc]
    simp only [Bool.false_eq_true, if_false]
    exact ⟨_, rfl⟩

/-- Claim C7 witness: the demo pair is blocked one second after a
completed trade and admitted again once the window has elapsed. -/
theorem repeat_pair_cooldown_blocks_then_allows_witness :
    requestExchange stHist 1000 1 2 = .error .repeatExchangeBlocked ∧
    (∃ p, requestExchange stHist cooldownWindowMs 1 2 = .ok p) :=
  ⟨repeat_pair_cooldown_blocks_then_allows.1 stHist 1000 1 2 bob bookX exDone
      (by decide) (by decide) (by decide) (by decide) (by decide) (by decide)
      (by decide) (by decide) (by decide) (by decide) (by decide),
   repeat_pair_cooldown_blocks_then_allows.2 stHist cooldownWindowMs 1 2 bob bookX
      (by decide) (by decide) (by decide) (by decide) (by decide) (by decide)
      (by decide) (by decide)⟩

/-- Claim C8: notification failures are invisible to the core: the helper
functions return normally for every database and email outcome (all their
errors are caught), a raised send exception is converted by sendEmail into
a failure result instead of propagating, and the approval transition's
result is computed independently of every notification input. -/
theorem notification_failure_never_affects_core :
    (∀ (db : Except String (Option ExchangeEmailData)) (configured : Bool)
        (api : ResendOutcome),
      sendExchangeRequestEmail db configured api = .ok ()) ∧
    (∀ (db : Except String (Option ExchangeEmailData)) (configured : Bool)
        (apiOwner apiRequester : ResendOutcome),
      sendExchangeCompletedEmail db configured apiOwner apiRequester = .ok ()) ∧
    (∀ (configured : Bool) (opts : SendEmailOptions) (msg : String),
      (sendEmail configured opts (.thrown msg)).success = false) ∧
    (∀ (s : St) (now eid cid : Nat)
        (db₁ db₂ : Except String (Option ExchangeEmailData))
        (c₁ c₂ : Bool) (a₁ a₂ b₁ b₂ : ResendOutcome),
      (approveExchangeNotified s now eid cid db₁ c₁ a₁ b₁).1 =
        (approveExchangeNotified s now eid cid db₂ c₂ a₂ b₂).1) := by
  refine ⟨?_, ?_, ?_, ?_⟩
  · intro db configured api
    cases db with
    | error m => rfl
    | ok o => cases o <;> rfl
  · intro db configured apiOwner apiRequester
    cases db with
    | error m => rfl
    | ok o => cases o <;> rfl
  · intro configured opts msg
    unfold sendEmail
    split
    · rfl
    · split
      · rfl
      · split
        · rfl
        · rfl
  · intro s now eid cid db₁ db₂ c₁ c₂ a₁ a₂ b₁ b₂
    rfl

/-- Claim C9: a successful addBook by an authenticated user creates the
book with the caller as currentOwnerId and isAvailable set to true, and
the book is present in the resulting state. -/
theorem addBook_assigns_owner_and_available
    (s : St) (uid : Nat) (d : BookData) (s' : St) (b : Book)
    (h : addBook s (some uid) d = .ok (s', b)) :
    b.currentOwnerId = uid ∧ b.isAvailable = true ∧ b ∈ s'.books := by
  obtain ⟨uid', hsess, hb, hs'⟩ := addBook_ok_inv s (some uid) d s' b h
  have huid : uid = uid' := Option.some.inj hsess
  subst huid
  subst hs'
  refine ⟨by rw [hb], by rw [hb], ?_⟩
  exact List.mem_append_right _ (List.mem_singleton_self b)

/-- Claim C9 witness: a concrete addBook call on the demo state. -/
theorem addBook_assigns_owner_and_available_witness :
    ({ id := stBase.nextBookId, title := strTrim newBookData.title,
       author := strTrim newBookData.author,
       description := newBookData.description.map strTrim,
       condition := newBookData.condition, images := newBookData.images.getD [],
       location := strTrim newBookData.location,
       currentOwnerId := 2, isAvailable := true, computedPoints := none } : Book).currentOwnerId = 2 ∧
    ({ id := stBase.nextBookId, title := strTrim newBookData.title,
       author := strTrim newBookData.author,
       description := newBookData.description.map strTrim,
       condition := newBookData.condition, images := newBookData.images.getD [],
       location := strTrim newBookData.location,
       currentOwnerId := 2, isAvailable := true, computedPoints := none } : Book).isAvailable = true ∧
    ({ id := stBase.nextBookId, title := strTrim newBookData.title,
       author := strTrim newBookData.author,
       description := newBookData.description.map strTrim,
       condition := newBookData.condition, images := newBookData.images.getD [],
       location := strTrim newBookData.location,
       currentOwnerId := 2, isAvailable := true, computedPoints := none } : Book) ∈
      ({ stBase with
          books := stBase.books ++
            [{ id := stBase.nextBookId, title := strTrim newBookData.title,
               author := strTrim newBookData.author,
               description := newBookData.description.map strTrim,
               condition := newBookData.condition, images := newBookData.images.getD [],
               location := strTrim newBookData.location,
               currentOwnerId := 2, isAvailable := true, computedPoints := none }],
          nextBookId := stBase.nextBookId + 1 } : St).books :=
  addBook_assigns_owner_and_available stBase 2 newBookData _ _ (by decide)

/-- Claim C10: a book referenced by at least one exchange row can never be
deleted — the exchanges foreign key is ON DELETE RESTRICT — not even by
its current owner, and the books and exchange history stay unchanged. -/
theorem deleteBook_blocked_by_exchange_history
    (s : St) (session : Option Nat) (bid : Nat)
    (hany : s.exchanges.any (fun e => e.bookId == bid) = true) :
    (∀ s', deleteBook s session bid ≠ .ok s') ∧
    deleteBookRun s session bid = s ∧
    (deleteBookRun s session bid).exchanges = s.exchanges ∧
    (∀ (uid : Nat) (b : Book), findBook s.books bid = some b →
      b.currentOwnerId = uid →
      deleteBook s (some uid) bid = .error .foreignKeyRestrict) := by
  have hne : ∀ s', deleteBook s session bid ≠ .ok s' := by
    intro s' hok
    unfold deleteBook dbDeleteBook at hok
    cases session with
    | none => exact Except.noConfusion hok
    | some uid =>
      simp only at hok
      cases hb : findBook s.books bid with
      | none =>
        rw [hb] at hok
        exact Except.noConfusion hok
      | some b =>
        rw [hb] at hok
        simp only at hok
        by_cases hown : b.currentOwnerId = uid
        · rw [if_pos hown, if_pos hany] at hok
          exact Except.noConfusion hok
        · rw [if_neg hown] at hok
          exact Except.noConfusion hok
  have hrun : deleteBookRun s session bid = s := by
    unfold deleteBookRun
    cases hdel : deleteBook s session bid with
    | ok s' => exact absurd hdel (hne s')
    | error e => rfl
  refine ⟨hne, hrun, by rw [hrun], ?_⟩
  intro uid b hfb hown
  unfold deleteBook dbDeleteBook
  simp only
  rw [hfb]
  simp only
  rw [if_pos hown, if_pos hany]

/-- Claim C10 witness: the demo book with one exchange row cannot be
deleted by its owner. -/
theorem deleteBook_blocked_by_exchange_history_witness :
    (∀ s', deleteBook stReq (some 1) 1 ≠ .ok s') ∧
    deleteBookRun stReq (some 1) 1 = stReq ∧
    (deleteBookRun stReq (some 1) 1).exchanges = stReq.exchanges ∧
    (∀ (uid : Nat) (b : Book), findBook stReq.books 1 = some b →
      b.currentOwnerId = uid →
      deleteBook stReq (some uid) 1 = .error .foreignKeyRestrict) :=
  deleteBook_blocked_by_exchange_history stReq (some 1) 1 (by decide)
